import Mathlib

/-!
Shallow embedding of the gofilesync repository (Go, package main).

The sync core lives in the watch/sync file (src/unnamed/part_002):
`watchAndSync` starts one goroutine that receives fsnotify events and, for
each event, synchronously calls `uploadFile` (on Write or Create bits) and
`deleteFile` (on the Remove bit) against a single SFTP client, discarding
their errors.  The configuration and interactive setup live in setup.go,
and a divergent CLI variant with its own `Config` and `loadConfig` lives in
main.go.  This file embeds those parts as executable Lean definitions and
proves the stated properties about them.
-/

set_option autoImplicit false

namespace Gofilesync

/-- Config (setup.go lines 12-22): the configuration consumed by
`watchAndSync` and produced by `interactiveSetup`. -/
structure Config where
  host : String
  port : Int
  username : String
  remotePath : String
  localPath : String
  useKeyring : Bool
  password : String
  logLevel : String
  logFile : String
deriving DecidableEq

/-- fsnotify.Event: a raw filesystem notification with an absolute path
`Name` and a bitmask `Op` of operation flags. -/
structure RawEvent where
  name : String
  op : Nat
deriving DecidableEq

/-- fsnotify.Create = 1 (first bit of the Op bitmask). -/
def fsCreate : Nat := 1

/-- fsnotify.Write = 2. -/
def fsWrite : Nat := 2

/-- fsnotify.Remove = 4. -/
def fsRemove : Nat := 4

/-- fsnotify.Rename = 8. -/
def fsRename : Nat := 8

/-- The Go test `event.Op&flag == flag` on the fsnotify bitmask. -/
def hasOp (op flag : Nat) : Bool := op &&& flag == flag

/-- Go filepath.Base on slash-separated paths: empty input yields ".";
trailing slashes are stripped; the last path element is returned; an
all-slash input yields "/". -/
def filepathBase (p : String) : String :=
  if p = "" then "."
  else
    let r := p.data.reverse.dropWhile (fun c => c == '/')
    if r = [] then "/"
    else String.mk (r.takeWhile (fun c => !(c == '/'))).reverse

/-- The remote target computed at part_002 line 162:
`remoteFile := cfg.RemotePath + "/" + filepath.Base(event.Name)`. -/
def remoteFileOf (cfg : Config) (e : RawEvent) : String :=
  cfg.remotePath ++ "/" ++ filepathBase e.name

/-- Kind of a remote mutation issued by the event goroutine. -/
inductive OpKind
  | upload
  | delete
deriving DecidableEq

/-- One remote operation as issued by the event goroutine: `uploadFile`
receives the local event name and the computed remote path, `deleteFile`
only the remote path (the local name is recorded for bookkeeping). -/
structure RemoteOp where
  kind : OpKind
  localName : String
  remotePath : String
deriving DecidableEq

/-- The remote operations the goroutine body issues for one event, in
program order (part_002 lines 162-170): an Upload when the Write or the
Create bit is set, then a Delete when the Remove bit is set.  Events with
neither bit (Rename, Chmod) produce no operation. -/
def eventOps (cfg : Config) (e : RawEvent) : List RemoteOp :=
  (if hasOp e.op fsWrite || hasOp e.op fsCreate then
    [{kind := OpKind.upload, localName := e.name, remotePath := remoteFileOf cfg e}]
  else [])
  ++
  (if hasOp e.op fsRemove then
    [{kind := OpKind.delete, localName := e.name, remotePath := remoteFileOf cfg e}]
  else [])

/-- All remote operations issued while the event goroutine consumes the
given event sequence, in issue order (the goroutine handles events one at
a time, lines 154-178). -/
def loopOps (cfg : Config) : List RawEvent → List RemoteOp
  | [] => []
  | e :: rest => eventOps cfg e ++ loopOps cfg rest

/-- Remote store contents modelled as an association list from remote path
to file content. -/
abbrev Store := List (String × String)

/-- Lookup in an association list (first match). -/
def lookupA : Store → String → Option String
  | [], _ => none
  | (q, d) :: t, p => if q = p then some d else lookupA t p

/-- Insert or overwrite a binding in place. -/
def insertA : Store → String → String → Store
  | [], p, c => [(p, c)]
  | (q, d) :: t, p, c => if q = p then (p, c) :: t else (q, d) :: insertA t p c

/-- Remove the binding for a path. -/
def removeA : Store → String → Store
  | [], _ => []
  | (q, d) :: t, p => if q = p then t else (q, d) :: removeA t p

/-- Local filesystem contents: regular files with their content, and the
set of directories. -/
structure LocalFS where
  files : Store
  dirs : List String
deriving DecidableEq

/-- Failure outcomes of the sftp primitives as seen by the caller. -/
inductive SftpErr
  | noSuchFile
  | connLost
  | localOpenFailed
  | isDirectory
deriving DecidableEq

/-- uploadFile (part_002 lines 121-134): `os.Open(localPath)`, then
`sftpClient.Create(remotePath)` (creates or truncates the remote file),
then `ReadFrom` copies the content.  Opening a missing local path fails
before any remote change; opening a local directory succeeds, so Create
still truncates the remote file to empty before ReadFrom fails with an
is-a-directory error.  The result pairs the returned error (none on
success) with the remote store after the call. -/
def uploadFile (fs : LocalFS) (remote : Store) (localPath remotePath : String) :
    Option SftpErr × Store :=
  match lookupA fs.files localPath with
  | some content => (none, insertA remote remotePath content)
  | none =>
    if localPath ∈ fs.dirs then (some SftpErr.isDirectory, insertA remote remotePath "")
    else (some SftpErr.localOpenFailed, remote)

/-- deleteFile (part_002 lines 136-138): returns `sftpClient.Remove(remotePath)`
unchanged.  Per the SFTP protocol and the pkg/sftp Client.Remove contract,
removing a path that does not exist returns a no-such-file error; removing
an existing file deletes it. -/
def deleteFile (remote : Store) (remotePath : String) : Option SftpErr × Store :=
  match lookupA remote remotePath with
  | some _ => (none, removeA remote remotePath)
  | none => (some SftpErr.noSuchFile, remote)

/-- Execute one remote operation against the store. -/
def applyOp (fs : LocalFS) (remote : Store) : RemoteOp → Option SftpErr × Store
  | {kind := OpKind.upload, localName := ln, remotePath := rp} => uploadFile fs remote ln rp
  | {kind := OpKind.delete, localName := _, remotePath := rp} => deleteFile remote rp

/-- State threaded through the event goroutine: the paths registered with
the fsnotify watcher, the remote store, the number of sftp calls made so
far, and the log of attempted operations with their outcomes. -/
structure SyncState where
  watched : List String
  remote : Store
  calls : Nat
  log : List (RemoteOp × Option SftpErr)
deriving DecidableEq

/-- Attempt each operation of one event body exactly once, in program
order.  The channel oracle says whether the k-th sftp call gets through;
a dropped call surfaces a connection-lost error.  Either way the error is
discarded (part_002 lines 165 and 169 ignore the return values) and the
loop moves on: nothing is re-queued. -/
def stepOps (fs : LocalFS) (oracle : Nat → Bool) : SyncState → List RemoteOp → SyncState
  | st, [] => st
  | st, op :: rest =>
    let res : Option SftpErr × Store :=
      if oracle st.calls then applyOp fs st.remote op
      else (some SftpErr.connLost, st.remote)
    stepOps fs oracle
      { watched := st.watched
        remote := res.2
        calls := st.calls + 1
        log := st.log ++ [(op, res.1)] } rest

/-- The event goroutine (part_002 lines 154-178): consume events one at a
time, issuing each event's operations synchronously.  The loop body never
touches the watcher, so `watched` is never updated. -/
def runSync (cfg : Config) (fs : LocalFS) (oracle : Nat → Bool) :
    List RawEvent → SyncState → SyncState
  | [], st => st
  | e :: rest, st => runSync cfg fs oracle rest (stepOps fs oracle st (eventOps cfg e))

/-- State at the start of watchAndSync: `watcher.Add(cfg.LocalPath)` is the
only registration ever performed (part_002 line 180), the given remote
contents pre-exist, no calls made, empty log. -/
def initState (cfg : Config) (remote0 : Store) : SyncState :=
  { watched := [cfg.localPath], remote := remote0, calls := 0, log := [] }

/-- Start or finish of a remote operation, for stating timing properties
of the goroutine. -/
inductive Action
  | start (op : RemoteOp)
  | finish (op : RemoteOp)
deriving DecidableEq

/-- The action history of a synchronous, single-threaded run of the given
operations: each operation starts and finishes before the next begins.
This is the timing behaviour of the single event goroutine, whose sftp
calls block until they return. -/
def opTrace : List RemoteOp → List Action
  | [] => []
  | op :: rest => Action.start op :: Action.finish op :: opTrace rest

/-- The action history of watchAndSync's event goroutine on an event
sequence. -/
def loopTrace (cfg : Config) (events : List RawEvent) : List Action :=
  opTrace (loopOps cfg events)

/-- Number of start actions whose operation satisfies `f`. -/
def startCount (f : RemoteOp → Bool) : List Action → Nat
  | [] => 0
  | Action.start op :: r => (if f op then 1 else 0) + startCount f r
  | Action.finish _ :: r => startCount f r

/-- Number of finish actions whose operation satisfies `f`. -/
def finishCount (f : RemoteOp → Bool) : List Action → Nat
  | [] => 0
  | Action.start _ :: r => finishCount f r
  | Action.finish op :: r => (if f op then 1 else 0) + finishCount f r

/-- The operations started in a history, in order. -/
def startedOps : List Action → List RemoteOp
  | [] => []
  | Action.start op :: r => op :: startedOps r
  | Action.finish _ :: r => startedOps r

/-- Predicate selecting operations on one remote path. -/
def onPath (p : String) (op : RemoteOp) : Bool := op.remotePath == p

/-- Setup answers collected by the survey prompts of interactiveSetup
(setup.go lines 27-50), in prompt order. -/
structure SetupAnswers where
  host : String
  portStr : String
  username : String
  remotePath : String
  localPath : String
  useKeyring : Bool
  pw : String
  logLevel : String
  logFile : String

/-- Accumulate decimal digits into a number. -/
def digitsToNat : List Char → Nat → Nat
  | [], acc => acc
  | c :: r, acc => digitsToNat r (acc * 10 + (c.toNat - 48))

/-- Go `fmt.Sscanf(s, "%d", &i)` as used at setup.go line 30: parse a
leading optional-sign decimal integer, leaving 0 when nothing parses. -/
def atoi (s : String) : Int :=
  match s.data with
  | '-' :: r => - Int.ofNat (digitsToNat (r.takeWhile fun c => c.isDigit) 0)
  | r => Int.ofNat (digitsToNat (r.takeWhile fun c => c.isDigit) 0)

/-- interactiveSetup (setup.go lines 24-55), its terminal prompts replaced
by the collected answers and the `keyring.Set` call by its outcome
(`none` = stored, `some err` = failed).  It fills a Config from the
answers; when keyring storage was chosen and fails, it prints a warning,
sets UseKeyring to false and falls back to the plaintext Password field
(lines 39-48); it then writes the config file, ignoring the write error,
and returns nil (lines 51-54).  Result: the saved Config and the returned
error. -/
def interactiveSetup (a : SetupAnswers) (keyringSet : Option String) :
    Config × Option String :=
  let cfg : Config :=
    { host := a.host
      port := atoi a.portStr
      username := a.username
      remotePath := a.remotePath
      localPath := a.localPath
      useKeyring := a.useKeyring
      password := ""
      logLevel := a.logLevel
      logFile := a.logFile }
  let cfg2 : Config :=
    if a.useKeyring then
      match keyringSet with
      | none => cfg
      | some _ => { cfg with useKeyring := false, password := a.pw }
    else { cfg with password := a.pw }
  (cfg2, none)

end Gofilesync

namespace MainGo

/-- Config of the divergent CLI variant (src/main.go lines 26-34). -/
structure Config where
  host : String
  port : Int
  username : String
  remotePath : String
  localPath : String
  logFile : String
  password : String
deriving DecidableEq

/-- Go `fmt.Sprintf("%+v", cfg)` on MainGo.Config: the brace-delimited
field-name/value rendering, Password included. -/
def configPlusV (c : Config) : String :=
  "\x7bHost:" ++ c.host
    ++ " Port:" ++ toString c.port
    ++ " Username:" ++ c.username
    ++ " RemotePath:" ++ c.remotePath
    ++ " LocalPath:" ++ c.localPath
    ++ " LogFile:" ++ c.logFile
    ++ " Password:" ++ c.password
    ++ "\x7d"

/-- loadConfig (src/main.go lines 36-50), with file reading and JSON
decoding abstracted into the parse outcome (`none` = read or unmarshal
error).  Returns the list of customPrint log messages it emits, in order,
and the returned config.  On success line 48 logs the whole Config through
`%+v`, Password field included; customPrint emits unconditionally (it
never consults the configured log level). -/
def loadConfig (parsed : Option Config) (configPath : String) :
    List String × Option Config :=
  let l0 := "Attempting to load config from: " ++ configPath
  match parsed with
  | none => ([l0, "Error reading or unmarshalling config"], none)
  | some c => ([l0, "Config loaded: " ++ configPlusV c], some c)

/-- Sample parsed configuration for the CLI variant. -/
def cfgM : Config :=
  { host := "example.org", port := 22, username := "u", remotePath := "/r",
    localPath := "/l", logFile := "", password := "hunter2" }

end MainGo

namespace Gofilesync

/-- Sample configuration: watch /local, mirror to /remote. -/
def cfgB : Config :=
  { host := "example.org"
    port := 22
    username := "u"
    remotePath := "/remote"
    localPath := "/local"
    useKeyring := false
    password := ""
    logLevel := "info"
    logFile := "" }

/-- Sample local tree: b.txt and a.txt at the root, one subdirectory
newdir, and a file inside a subdirectory sub. -/
def fsB : LocalFS :=
  { files := [("/local/b.txt", "bbb"), ("/local/a.txt", "hi"), ("/local/sub/f.txt", "nested")]
    dirs := ["/local/newdir", "/local/sub"] }

/-- Scenario B of the spec: create b.txt, modify it five times, then
delete it, all within one debounce window. -/
def evB : List RawEvent :=
  [ { name := "/local/b.txt", op := fsCreate }
  , { name := "/local/b.txt", op := fsWrite }
  , { name := "/local/b.txt", op := fsWrite }
  , { name := "/local/b.txt", op := fsWrite }
  , { name := "/local/b.txt", op := fsWrite }
  , { name := "/local/b.txt", op := fsWrite }
  , { name := "/local/b.txt", op := fsRemove } ]

/-- Channel oracle under which every sftp call fails with a connection
(transient) error. -/
def failOracle : Nat → Bool := fun _ => false

/-- Channel oracle under which every sftp call gets through. -/
def okOracle : Nat → Bool := fun _ => true

/-- Sample setup answers with keyring storage selected. -/
def ansB : SetupAnswers :=
  { host := "example.org", portStr := "22", username := "u", remotePath := "/remote",
    localPath := "/local", useKeyring := true, pw := "s3cret", logLevel := "info",
    logFile := "" }

end Gofilesync


namespace Gofilesync

/-! Helper lemmas. -/

/-- Overwriting a binding twice with the same content is the same as once. -/
theorem insertA_insertA (s : Store) (p c : String) :
    insertA (insertA s p c) p c = insertA s p c := by
  induction s with
  | nil => simp [insertA]
  | cons hd t ih =>
    obtain ⟨q, d⟩ := hd
    by_cases h : q = p
    · simp [insertA, h]
    · simp [insertA, h, ih]

/-- In any prefix of the synchronous bracketed history of an operation
list, at most one more operation satisfying `f` has started than has
finished. -/
theorem opTrace_bracket (f : RemoteOp → Bool) (l : List RemoteOp) :
    ∀ pre suf : List Action, opTrace l = pre ++ suf →
      startCount f pre ≤ finishCount f pre + 1 := by
  induction l with
  | nil =>
    intro pre suf h
    have hp : pre = [] := by
      cases pre with
      | nil => rfl
      | cons a t => exact absurd h (by simp [opTrace])
    subst hp
    simp [startCount]
  | cons op rest ih =>
    intro pre suf h
    cases pre with
    | nil => simp [startCount]
    | cons a pre1 =>
      simp only [opTrace, List.cons_append] at h
      injection h with h1 h2
      cases pre1 with
      | nil =>
        subst h1
        by_cases hf : f op <;> simp [startCount, finishCount, hf]
      | cons b pre2 =>
        simp only [List.cons_append] at h2
        injection h2 with h3 h4
        subst h1
        subst h3
        have hih := ih pre2 suf h4
        by_cases hf : f op <;> simp [startCount, finishCount, hf] <;> omega

/-- The operations started in a bracketed history are the operations
themselves, in order. -/
theorem startedOps_opTrace (l : List RemoteOp) : startedOps (opTrace l) = l := by
  induction l with
  | nil => rfl
  | cons op rest ih => simp [opTrace, startedOps, ih]

/-- One event body attempts each of its operations exactly once, appending
them to the log in program order, whatever the channel does. -/
theorem stepOps_log_map (fs : LocalFS) (oracle : Nat → Bool) :
    ∀ (ops : List RemoteOp) (st : SyncState),
      ((stepOps fs oracle st ops).log).map Prod.fst = (st.log).map Prod.fst ++ ops := by
  intro ops
  induction ops with
  | nil => intro st; simp [stepOps]
  | cons op rest ih =>
    intro st
    simp only [stepOps]
    rw [ih]
    simp

/-- The event body never registers or removes watches. -/
theorem stepOps_watched (fs : LocalFS) (oracle : Nat → Bool) :
    ∀ (ops : List RemoteOp) (st : SyncState),
      (stepOps fs oracle st ops).watched = st.watched := by
  intro ops
  induction ops with
  | nil => intro st; simp [stepOps]
  | cons op rest ih => intro st; simp only [stepOps]; rw [ih]

/-- Over a whole run, the attempted operations are exactly the issued
operations, once each, in issue order, independent of channel outcomes. -/
theorem runSync_log_map (cfg : Config) (fs : LocalFS) (oracle : Nat → Bool) :
    ∀ (events : List RawEvent) (st : SyncState),
      ((runSync cfg fs oracle events st).log).map Prod.fst
        = (st.log).map Prod.fst ++ loopOps cfg events := by
  intro events
  induction events with
  | nil => intro st; simp [runSync, loopOps]
  | cons e rest ih =>
    intro st
    simp only [runSync, loopOps]
    rw [ih, stepOps_log_map]
    simp

/-- The watch list never changes over a run. -/
theorem runSync_watched (cfg : Config) (fs : LocalFS) (oracle : Nat → Bool) :
    ∀ (events : List RawEvent) (st : SyncState),
      (runSync cfg fs oracle events st).watched = st.watched := by
  intro events
  induction events with
  | nil => intro st; simp [runSync]
  | cons e rest ih =>
    intro st
    simp only [runSync]
    rw [ih, stepOps_watched]

/-- dropWhile for slashes removes nothing from a list opening with a
slash-free nonempty segment. -/
theorem dropWhile_no_slash (l m : List Char) (hl : l ≠ []) (hns : '/' ∉ l) :
    (l ++ m).dropWhile (fun c => c == '/') = l ++ m := by
  cases l with
  | nil => exact absurd rfl hl
  | cons c cs =>
    have hc : c ≠ '/' := fun hcc => hns (by rw [← hcc]; exact List.mem_cons_self c cs)
    have hcb : (c == '/') = false := by simp [hc]
    simp [List.dropWhile_cons, hcb]

/-- takeWhile for non-slashes captures exactly the slash-free segment
before the first slash. -/
theorem takeWhile_until_slash (l m : List Char) (hns : '/' ∉ l) :
    (l ++ '/' :: m).takeWhile (fun c => !(c == '/')) = l := by
  induction l with
  | nil => simp [List.takeWhile_cons]
  | cons c cs ih =>
    have hc : c ≠ '/' := fun hcc => hns (by rw [← hcc]; exact List.mem_cons_self c cs)
    have hcb : (c == '/') = false := by simp [hc]
    have hcs : '/' ∉ cs := fun hm => hns (List.mem_cons_of_mem c hm)
    simp [List.takeWhile_cons, hcb, ih hcs]

/-- filepath.Base of a path ending in a slash-free nonempty final
component is that component. -/
theorem filepathBase_append (p : String) (dirCs baseCs : List Char)
    (hname : p.data = dirCs ++ '/' :: baseCs)
    (hne : baseCs ≠ []) (hns : '/' ∉ baseCs) :
    filepathBase p = String.mk baseCs := by
  have hp : p ≠ "" := by
    intro h0
    rw [h0] at hname
    have h1 : ([] : List Char) = dirCs ++ '/' :: baseCs := hname
    simp at h1
  have hbne : baseCs.reverse ≠ [] := by simp [hne]
  have hbns : '/' ∉ baseCs.reverse := by
    intro hm
    exact hns (List.mem_reverse.mp hm)
  have hrev : (dirCs ++ '/' :: baseCs).reverse
      = baseCs.reverse ++ '/' :: dirCs.reverse := by
    simp
  simp only [filepathBase, hname, hrev]
  rw [if_neg hp]
  rw [dropWhile_no_slash _ _ hbne hbns]
  have hne2 : baseCs.reverse ++ '/' :: dirCs.reverse ≠ [] := by simp
  rw [if_neg hne2]
  rw [takeWhile_until_slash _ _ hbns]
  rw [List.reverse_reverse]

end Gofilesync

namespace Gofilesync

/-! Claim theorems. -/

/-- C1 counterexample.  The event goroutine has no debounce window and no
coalescing: on spec scenario B (create b.txt, five modifies, then delete,
all on one path) it issues six Uploads and one Delete, so the claimed net
result — exactly one Delete and zero Uploads — is false. -/
theorem watchAndSync_scenarioB_cex :
    (loopOps cfgB evB).countP (fun op => op.kind == OpKind.upload) = 6
    ∧ (loopOps cfgB evB).countP (fun op => op.kind == OpKind.delete) = 1
    ∧ ¬ (loopOps cfgB evB).countP (fun op => op.kind == OpKind.upload) = 0 := by
  decide

/-- C1 amended.  The loop issues exactly one remote operation per
Created/Modified/Removed event, immediately and in arrival order: an
Upload for a Created or Modified event, a Delete for a Removed event.  No
merging of bursts happens. -/
theorem watchAndSync_one_op_per_event (cfg : Config) (events : List RawEvent)
    (h : ∀ e ∈ events, e.op = fsCreate ∨ e.op = fsWrite ∨ e.op = fsRemove) :
    loopOps cfg events = events.map (fun e =>
      { kind := if e.op = fsRemove then OpKind.delete else OpKind.upload,
        localName := e.name, remotePath := remoteFileOf cfg e }) := by
  induction events with
  | nil => rfl
  | cons e rest ih =>
    have he := h e (List.mem_cons_self e rest)
    have hr : ∀ x ∈ rest, x.op = fsCreate ∨ x.op = fsWrite ∨ x.op = fsRemove :=
      fun x hx => h x (List.mem_cons_of_mem e hx)
    obtain ⟨nm, opv⟩ := e
    simp only [loopOps, List.map_cons]
    rw [ih hr]
    rcases he with h1 | h1 | h1 <;>
      first
      | (have h2 : opv = fsCreate := h1; subst h2;
          simp [eventOps, hasOp, fsCreate, fsWrite, fsRemove])
      | (have h2 : opv = fsWrite := h1; subst h2;
          simp [eventOps, hasOp, fsCreate, fsWrite, fsRemove])
      | (have h2 : opv = fsRemove := h1; subst h2;
          simp [eventOps, hasOp, fsCreate, fsWrite, fsRemove])

/-- Witness for the amended C1 at spec scenario B. -/
theorem watchAndSync_one_op_per_event_witness :
    (∀ e ∈ evB, e.op = fsCreate ∨ e.op = fsWrite ∨ e.op = fsRemove)
    ∧ loopOps cfgB evB = evB.map (fun e =>
        { kind := if e.op = fsRemove then OpKind.delete else OpKind.upload,
          localName := e.name, remotePath := remoteFileOf cfgB e }) :=
  ⟨by decide, watchAndSync_one_op_per_event cfgB evB (by decide)⟩

/-- C2.  In the action history of the single event goroutine, at every
reachable point (every prefix of the history) the number of started
operations on any one remote path exceeds the number of finished ones by
at most one: a second operation for a path never begins before the prior
one has terminated. -/
theorem watchAndSync_per_path_serial (cfg : Config) (events : List RawEvent)
    (p : String) (pre suf : List Action)
    (h : loopTrace cfg events = pre ++ suf) :
    startCount (onPath p) pre ≤ finishCount (onPath p) pre + 1 :=
  opTrace_bracket (onPath p) (loopOps cfg events) pre suf h

/-- Witness for C2 on scenario B after three actions. -/
theorem watchAndSync_per_path_serial_witness :
    startCount (onPath "/remote/b.txt") ((loopTrace cfgB evB).take 3)
      ≤ finishCount (onPath "/remote/b.txt") ((loopTrace cfgB evB).take 3) + 1 :=
  watchAndSync_per_path_serial cfgB evB "/remote/b.txt"
    ((loopTrace cfgB evB).take 3) ((loopTrace cfgB evB).drop 3)
    (List.take_append_drop 3 (loopTrace cfgB evB)).symm

/-- C3 counterexample.  For a file inside a subdirectory of the watched
root (/local/sub/f.txt, relative path sub/f.txt) the code targets the
remote root joined with the base name only (/remote/f.txt), not the
remote root joined with the relative path (/remote/sub/f.txt): directory
structure is not mirrored. -/
theorem watchAndSync_nested_path_cex :
    remoteFileOf cfgB { name := "/local/sub/f.txt", op := fsCreate } = "/remote/f.txt"
    ∧ remoteFileOf cfgB { name := "/local/sub/f.txt", op := fsCreate }
        ≠ "/remote" ++ "/" ++ "sub/f.txt" := by
  decide

/-- C3 amended.  The remote target of every event equals the remote root
joined with the final (slash-free) component of the event path only.  In
particular the claim holds exactly for files directly inside the watched
root, where the relative path is the base name. -/
theorem remoteFileOf_basename (cfg : Config) (e : RawEvent) (dirCs baseCs : List Char)
    (hname : e.name.data = dirCs ++ '/' :: baseCs)
    (hne : baseCs ≠ []) (hns : '/' ∉ baseCs) :
    remoteFileOf cfg e = cfg.remotePath ++ "/" ++ String.mk baseCs := by
  unfold remoteFileOf
  rw [filepathBase_append e.name dirCs baseCs hname hne hns]

/-- Witness for the amended C3 at a file directly inside the root. -/
theorem remoteFileOf_basename_witness :
    ({ name := "/local/f.txt", op := fsCreate } : RawEvent).name.data
        = "/local".data ++ '/' :: "f.txt".data
    ∧ "f.txt".data ≠ []
    ∧ '/' ∉ "f.txt".data
    ∧ remoteFileOf cfgB { name := "/local/f.txt", op := fsCreate }
        = cfgB.remotePath ++ "/" ++ String.mk "f.txt".data :=
  ⟨by decide, by decide, by decide,
    remoteFileOf_basename cfgB { name := "/local/f.txt", op := fsCreate }
      "/local".data "f.txt".data (by decide) (by decide) (by decide)⟩

/-- C4 counterexample.  Under a channel that fails every call, the single
Upload issued for a Created event is attempted exactly once, fails with
the transient connection error, and the run ends with no re-queue, no
second attempt, no backoff and no dead-letter state: the whole log of the
run is that one failed attempt. -/
theorem transient_not_retried_cex :
    (runSync cfgB fsB failOracle [{ name := "/local/a.txt", op := fsCreate }]
        (initState cfgB [])).log
      = [({ kind := OpKind.upload, localName := "/local/a.txt",
            remotePath := "/remote/a.txt" }, some SftpErr.connLost)]
    ∧ ¬ 2 ≤ ((runSync cfgB fsB failOracle [{ name := "/local/a.txt", op := fsCreate }]
        (initState cfgB [])).log).length := by
  decide

/-- C4 amended.  Failures are discarded: whatever the channel outcomes,
every issued operation is attempted exactly once, in issue order, and the
run performs no retry of any failed operation. -/
theorem attempts_once_per_op (cfg : Config) (fs : LocalFS) (oracle : Nat → Bool)
    (events : List RawEvent) (remote0 : Store) :
    ((runSync cfg fs oracle events (initState cfg remote0)).log).map Prod.fst
      = loopOps cfg events := by
  rw [runSync_log_map]
  simp [initState]

/-- C5 counterexample.  The remove primitive on a path absent from the
remote store returns the no-such-file error, not success. -/
theorem deleteFile_absent_cex :
    (deleteFile [] "/remote/x.txt").1 = some SftpErr.noSuchFile
    ∧ (deleteFile [] "/remote/x.txt").1 ≠ none := by
  decide

/-- C5 amended.  Removing a path absent from the remote store returns the
no-such-file error and leaves the store unchanged; deleteFile propagates
that error unchanged (its caller in the event loop then discards it). -/
theorem deleteFile_absent_err (remote : Store) (p : String)
    (h : lookupA remote p = none) :
    deleteFile remote p = (some SftpErr.noSuchFile, remote) := by
  simp [deleteFile, h]

/-- Witness for the amended C5. -/
theorem deleteFile_absent_err_witness :
    lookupA [("/remote/a.txt", "hi")] "/remote/x.txt" = none
    ∧ deleteFile [("/remote/a.txt", "hi")] "/remote/x.txt"
        = (some SftpErr.noSuchFile, [("/remote/a.txt", "hi")]) :=
  ⟨by decide, deleteFile_absent_err [("/remote/a.txt", "hi")] "/remote/x.txt" (by decide)⟩

/-- C6.  The upload primitive is idempotent on the remote store: running
uploadFile a second time with the same local content leaves the store in
the state the first call produced, in every case (content copied, local
path missing, or local path a directory). -/
theorem uploadFile_idem (fs : LocalFS) (s : Store) (l r : String) :
    (uploadFile fs (uploadFile fs s l r).2 l r).2 = (uploadFile fs s l r).2 := by
  cases h : lookupA fs.files l with
  | some c => simp [uploadFile, h, insertA_insertA]
  | none =>
    by_cases hd : l ∈ fs.dirs <;> simp [uploadFile, h, hd, insertA_insertA]

/-- C7 counterexample.  A Created event whose target is a directory of the
local tree does not extend the watch list: after processing the creation
of /local/newdir the watcher still watches only the configured root, so
the new subdirectory is not watched. -/
theorem created_dir_not_watched_cex :
    hasOp ({ name := "/local/newdir", op := fsCreate } : RawEvent).op fsCreate = true
    ∧ "/local/newdir" ∈ fsB.dirs
    ∧ "/local/newdir" ∉ (runSync cfgB fsB okOracle
        [{ name := "/local/newdir", op := fsCreate }] (initState cfgB [])).watched := by
  decide

/-- C7 amended.  The watch list is constant: watcher.Add is called once on
the configured root before the loop, and no event — in particular no
Created directory — ever adds or removes a watch. -/
theorem watched_never_extended (cfg : Config) (fs : LocalFS) (oracle : Nat → Bool)
    (events : List RawEvent) (remote0 : Store) :
    (runSync cfg fs oracle events (initState cfg remote0)).watched = [cfg.localPath] := by
  rw [runSync_watched]
  simp [initState]

/-- C9.  All remote operations are issued strictly one at a time by the
single event goroutine: in every prefix of the action history at most one
operation (of any path) is in flight, and the operations start in exactly
the order the triggering events arrived. -/
theorem watchAndSync_single_flight (cfg : Config) (events : List RawEvent) :
    (∀ pre suf : List Action, loopTrace cfg events = pre ++ suf →
        startCount (fun _ => true) pre ≤ finishCount (fun _ => true) pre + 1)
    ∧ startedOps (loopTrace cfg events) = loopOps cfg events :=
  ⟨fun pre suf h => opTrace_bracket (fun _ => true) (loopOps cfg events) pre suf h,
    startedOps_opTrace (loopOps cfg events)⟩

/-- Witness for C9 on scenario B after one action. -/
theorem watchAndSync_single_flight_witness :
    (startCount (fun _ => true) ((loopTrace cfgB evB).take 1)
        ≤ finishCount (fun _ => true) ((loopTrace cfgB evB).take 1) + 1)
    ∧ startedOps (loopTrace cfgB evB) = loopOps cfgB evB :=
  ⟨(watchAndSync_single_flight cfgB evB).1 ((loopTrace cfgB evB).take 1)
      ((loopTrace cfgB evB).drop 1) (List.take_append_drop 1 (loopTrace cfgB evB)).symm,
    (watchAndSync_single_flight cfgB evB).2⟩

/-- C10.  When keyring storage was chosen and keyring.Set fails,
interactiveSetup saves the password in plaintext in the Password field,
sets UseKeyring to false, and still returns nil. -/
theorem keyring_failure_fallback (a : SetupAnswers) (err : String)
    (h : a.useKeyring = true) :
    (interactiveSetup a (some err)).1.password = a.pw
    ∧ (interactiveSetup a (some err)).1.useKeyring = false
    ∧ (interactiveSetup a (some err)).2 = none := by
  simp [interactiveSetup, h]

/-- Witness for C10 at concrete setup answers. -/
theorem keyring_failure_fallback_witness :
    ansB.useKeyring = true
    ∧ ((interactiveSetup ansB (some "keyring locked")).1.password = ansB.pw
      ∧ (interactiveSetup ansB (some "keyring locked")).1.useKeyring = false
      ∧ (interactiveSetup ansB (some "keyring locked")).2 = none) :=
  ⟨rfl, keyring_failure_fallback ansB "keyring locked" rfl⟩

end Gofilesync

namespace MainGo

/-- C8 (code bug).  loadConfig logs the loaded Config through %+v, so the
log output contains the Password field: two configurations differing only
in the password produce different logged output, contradicting the spec
that the core never logs credentials. -/
theorem loadConfig_logs_password :
    (loadConfig (some cfgM) "config.json").1
      ≠ (loadConfig (some { cfgM with password := "swordfish" }) "config.json").1 := by
  decide

end MainGo
